import Mathlib

/-!
Verification of the canvas state/history model of the
react-state-managers-comparison repository.

The development shallowly embeds the TypeScript sources:

* `src/store/types.ts`      — `Point`, `Shape`, `DrawingTool`, `CanvasState`,
                              `initialCanvasState`;
* `src/store/utils.ts`      — `createShape`, `addToHistory`, `canUndo`, `canRedo`;
* `src/store/contextStore.tsx` — `canvasReducer` (the React Context backend);
* `src/store/reduxStore.ts` — the Redux Toolkit slice reducers (`reduxStep`);
* `src/store/zustandStore.ts` — the Zustand store actions (`zustandStep`);
* `src/components/StoreManager.tsx` — the backend-switching component
                              (`AppState`, `handleStoreChange`).

Conventions of the embedding:

* JavaScript arrays become `List`; `arr.slice(0, k)` becomes `List.take k`,
  `[...a, x]` becomes `a ++ [x]`, and `arr.slice(-m)` for a natural `m`
  becomes `List.drop (arr.length - m)` — except that JavaScript evaluates
  `-0` to `0`, so `arr.slice(-0) = arr.slice(0)` returns the whole array;
  that special case is embedded explicitly.
* Numeric point coordinates and timestamps are embedded as `Int`; the state
  machine only stores them and never computes with them, so the carrier
  type is irrelevant to every property proved here.
* `historyIndex` is embedded as `Nat`: every value the reducers produce is
  a non-negative integer, and on non-negative values every comparison and
  subtraction performed by the sources agrees with the `Nat` operations
  (`canRedo` compares `i < len - 1`, which for `len = 0` is `i < -1`,
  false in JavaScript, and `i < 0`, false, in the `Nat` embedding).
* `generateShapeId()` and `Date.now()` are impure in the source; they are
  embedded as an explicit generator parameter `Gen` supplied per command,
  the "common deterministic parameter" of the cross-backend claims.
* `history[i]` (element access) is embedded as `List.getD i []`; on every
  code path where the source accesses `history`, the index is guarded to
  be in bounds, so the default is never produced.
-/

/-- Point from src/store/types.ts: a point in 2D space. -/
structure Point where
  x : Int
  y : Int
deriving DecidableEq, Repr

/-- DrawingTool from src/store/types.ts: supported drawing tools. -/
inductive DrawingTool where
  | pen
  | rectangle
  | circle
deriving DecidableEq, Repr

/-- Shape from src/store/types.ts: a complete drawing shape. -/
structure Shape where
  id : String
  points : List Point
  color : String
  type : DrawingTool
  timestamp : Int
deriving DecidableEq, Repr

/-- CanvasState from src/store/types.ts: the complete canvas application
state managed by each backend. -/
structure CanvasState where
  shapes : List Shape
  currentColor : String
  currentTool : DrawingTool
  history : List (List Shape)
  historyIndex : Nat
  isDrawing : Bool
  currentPath : List Point
deriving DecidableEq, Repr

/-- initialCanvasState from src/store/types.ts. -/
def initialCanvasState : CanvasState :=
  { shapes := []
    currentColor := "#000000"
    currentTool := .pen
    history := [[]]
    historyIndex := 0
    isDrawing := false
    currentPath := [] }

/-- Generator parameter standing for the impure `generateShapeId()` and
`Date.now()` calls made by `createShape` (src/store/utils.ts). -/
structure Gen where
  id : String
  now : Int
deriving DecidableEq, Repr

/-- createShape from src/store/utils.ts: builds a new shape from drawing
data; `[...points]` copies the array, which is the identity on values. -/
def createShape (g : Gen) (points : List Point) (color : String)
    (type : DrawingTool) : Shape :=
  { id := g.id
    points := points
    color := color
    type := type
    timestamp := g.now }

/-- Result record of `addToHistory` (src/store/utils.ts returns
an object with fields `history` and `historyIndex`). -/
structure HistoryUpdate where
  history : List (List Shape)
  historyIndex : Nat
deriving DecidableEq, Repr

/-- addToHistory from src/store/utils.ts: truncates the history after the
current index, appends a copy of the new state, and limits the size via
`newHistory.slice(-maxHistorySize)`.  The source defaults
`maxHistorySize` to 50; every caller omits the argument, so the embedded
call sites pass 50 explicitly.  JavaScript `slice(-0)` equals `slice(0)`
(the whole array), hence the explicit `maxHistorySize = 0` case. -/
def addToHistory (currentHistory : List (List Shape)) (currentIndex : Nat)
    (newState : List Shape) (maxHistorySize : Nat) : HistoryUpdate :=
  let truncatedHistory := currentHistory.take (currentIndex + 1)
  let newHistory := truncatedHistory ++ [newState]
  let finalHistory :=
    if newHistory.length > maxHistorySize then
      if maxHistorySize = 0 then newHistory
      else newHistory.drop (newHistory.length - maxHistorySize)
    else newHistory
  { history := finalHistory
    historyIndex := finalHistory.length - 1 }

/-- canUndo from src/store/utils.ts. -/
def canUndo (historyIndex : Nat) : Bool :=
  historyIndex > 0

/-- canRedo from src/store/utils.ts.  On `Nat` arguments this agrees with
the JavaScript comparison `historyIndex < historyLength - 1`: for
`historyLength = 0` both sides are false. -/
def canRedo (historyIndex : Nat) (historyLength : Nat) : Bool :=
  historyIndex < historyLength - 1

/-- Command: the action vocabulary shared by the three backends
(`CanvasActionType` in src/store/contextStore.tsx, the slice reducers in
src/store/reduxStore.ts, and the store actions in
src/store/zustandStore.ts). -/
inductive Command where
  | addShape (points : List Point) (color : String) (tool : DrawingTool)
  | changeColor (color : String)
  | changeTool (tool : DrawingTool)
  | startDrawing (p : Point)
  | continueDrawing (p : Point)
  | finishDrawing
  | undo
  | redo
  | clear
  | reset
deriving DecidableEq, Repr

/-- canvasReducer from src/store/contextStore.tsx: the React Context
backend's transition function, transcribed case by case. -/
def canvasReducer (g : Gen) (state : CanvasState) (action : Command) :
    CanvasState :=
  match action with
  | .addShape points color tool =>
    let newShape := createShape g points color tool
    let newShapes := state.shapes ++ [newShape]
    let u := addToHistory state.history state.historyIndex newShapes 50
    { state with
        shapes := newShapes
        history := u.history
        historyIndex := u.historyIndex }
  | .changeColor color =>
    { state with currentColor := color }
  | .changeTool tool =>
    { state with currentTool := tool }
  | .startDrawing p =>
    { state with isDrawing := true, currentPath := [p] }
  | .continueDrawing p =>
    if !state.isDrawing then state
    else { state with currentPath := state.currentPath ++ [p] }
  | .finishDrawing =>
    if !state.isDrawing || state.currentPath.length == 0 then
      { state with isDrawing := false, currentPath := [] }
    else
      let newShape :=
        createShape g state.currentPath state.currentColor state.currentTool
      let newShapes := state.shapes ++ [newShape]
      let u := addToHistory state.history state.historyIndex newShapes 50
      { state with
          shapes := newShapes
          history := u.history
          historyIndex := u.historyIndex
          isDrawing := false
          currentPath := [] }
  | .undo =>
    if !canUndo state.historyIndex then state
    else
      let newHistoryIndex := state.historyIndex - 1
      { state with
          historyIndex := newHistoryIndex
          shapes := state.history.getD newHistoryIndex []
          isDrawing := false
          currentPath := [] }
  | .redo =>
    if !canRedo state.historyIndex state.history.length then state
    else
      let newHistoryIndex := state.historyIndex + 1
      { state with
          historyIndex := newHistoryIndex
          shapes := state.history.getD newHistoryIndex []
          isDrawing := false
          currentPath := [] }
  | .clear =>
    let newShapes : List Shape := []
    let u := addToHistory state.history state.historyIndex newShapes 50
    { state with
        shapes := newShapes
        history := u.history
        historyIndex := u.historyIndex
        isDrawing := false
        currentPath := [] }
  | .reset => initialCanvasState

/-- Redux Toolkit slice reducers from src/store/reduxStore.ts, transcribed
case by case: the Immer draft mutations (`state.shapes.push(...)`,
field assignments) are embedded as the functional update producing the
finalized next state; the mutation order of the source is preserved in
the order of the record fields. -/
def reduxStep (g : Gen) (state : CanvasState) (action : Command) :
    CanvasState :=
  match action with
  | .addShape points color tool =>
    let newShape := createShape g points color tool
    let pushedShapes := state.shapes ++ [newShape]
    let u := addToHistory state.history state.historyIndex pushedShapes 50
    { state with
        shapes := pushedShapes
        history := u.history
        historyIndex := u.historyIndex }
  | .changeColor color =>
    { state with currentColor := color }
  | .changeTool tool =>
    { state with currentTool := tool }
  | .startDrawing p =>
    { state with isDrawing := true, currentPath := [p] }
  | .continueDrawing p =>
    if state.isDrawing then
      { state with currentPath := state.currentPath ++ [p] }
    else state
  | .finishDrawing =>
    if state.isDrawing && state.currentPath.length > 0 then
      let newShape :=
        createShape g state.currentPath state.currentColor state.currentTool
      let pushedShapes := state.shapes ++ [newShape]
      let u := addToHistory state.history state.historyIndex pushedShapes 50
      { state with
          shapes := pushedShapes
          isDrawing := false
          currentPath := []
          history := u.history
          historyIndex := u.historyIndex }
    else
      { state with isDrawing := false, currentPath := [] }
  | .undo =>
    if canUndo state.historyIndex then
      let newIndex := state.historyIndex - 1
      { state with
          historyIndex := newIndex
          shapes := state.history.getD newIndex []
          isDrawing := false
          currentPath := [] }
    else state
  | .redo =>
    if canRedo state.historyIndex state.history.length then
      let newIndex := state.historyIndex + 1
      { state with
          historyIndex := newIndex
          shapes := state.history.getD newIndex []
          isDrawing := false
          currentPath := [] }
    else state
  | .clear =>
    let clearedShapes : List Shape := []
    let u := addToHistory state.history state.historyIndex clearedShapes 50
    { state with
        shapes := clearedShapes
        history := u.history
        historyIndex := u.historyIndex
        isDrawing := false
        currentPath := [] }
  | .reset => initialCanvasState

/-- Zustand store actions from src/store/zustandStore.ts, transcribed case
by case.  `finishDrawing` reads the guard via `get()` before calling
`set`; both arms are embedded with the values those calls produce.
`reset` replaces every state field with `initialCanvasState`'s. -/
def zustandStep (g : Gen) (state : CanvasState) (action : Command) :
    CanvasState :=
  match action with
  | .addShape points color tool =>
    let newShape := createShape g points color tool
    let pushedShapes := state.shapes ++ [newShape]
    let u := addToHistory state.history state.historyIndex pushedShapes 50
    { state with
        shapes := pushedShapes
        history := u.history
        historyIndex := u.historyIndex }
  | .changeColor color =>
    { state with currentColor := color }
  | .changeTool tool =>
    { state with currentTool := tool }
  | .startDrawing p =>
    { state with isDrawing := true, currentPath := [p] }
  | .continueDrawing p =>
    if state.isDrawing then
      { state with currentPath := state.currentPath ++ [p] }
    else state
  | .finishDrawing =>
    if state.isDrawing && state.currentPath.length > 0 then
      let newShape :=
        createShape g state.currentPath state.currentColor state.currentTool
      let pushedShapes := state.shapes ++ [newShape]
      let u := addToHistory state.history state.historyIndex pushedShapes 50
      { state with
          shapes := pushedShapes
          isDrawing := false
          currentPath := []
          history := u.history
          historyIndex := u.historyIndex }
    else
      { state with isDrawing := false, currentPath := [] }
  | .undo =>
    if canUndo state.historyIndex then
      let newIndex := state.historyIndex - 1
      { state with
          historyIndex := newIndex
          shapes := state.history.getD newIndex []
          isDrawing := false
          currentPath := [] }
    else state
  | .redo =>
    if canRedo state.historyIndex state.history.length then
      let newIndex := state.historyIndex + 1
      { state with
          historyIndex := newIndex
          shapes := state.history.getD newIndex []
          isDrawing := false
          currentPath := [] }
    else state
  | .clear =>
    let clearedShapes : List Shape := []
    let u := addToHistory state.history state.historyIndex clearedShapes 50
    { state with
        shapes := clearedShapes
        history := u.history
        historyIndex := u.historyIndex
        isDrawing := false
        currentPath := [] }
  | .reset => initialCanvasState

/-- Replaying a command sequence against the React Context reducer; each
command comes with its own generator value (the ids/timestamps produced
while that command ran). -/
def contextReplay (cmds : List (Gen × Command)) (s : CanvasState) :
    CanvasState :=
  cmds.foldl (fun st p => canvasReducer p.1 st p.2) s

/-- Replaying a command sequence against the Redux Toolkit slice. -/
def reduxReplay (cmds : List (Gen × Command)) (s : CanvasState) :
    CanvasState :=
  cmds.foldl (fun st p => reduxStep p.1 st p.2) s

/-- Replaying a command sequence against the Zustand store. -/
def zustandReplay (cmds : List (Gen × Command)) (s : CanvasState) :
    CanvasState :=
  cmds.foldl (fun st p => zustandStep p.1 st p.2) s

/-- StoreType from src/hooks/storeAdapter.ts: the available backends. -/
inductive StoreType where
  | zustand
  | redux
  | context
deriving DecidableEq, Repr

/-- Combined state of the whole application, as wired by
src/components/StoreManager.tsx: the Zustand store and the Redux store
are module-level singletons, each owning its own `CanvasState`; the React
Context backend's state lives in the mounted `CanvasProvider`
(`useReducer(canvasReducer, initialCanvasState)`,
src/store/contextStore.tsx); `currentStore` is the `useState` value
selecting the active provider. -/
structure AppState where
  zustandState : CanvasState
  reduxState : CanvasState
  contextState : CanvasState
  currentStore : StoreType
deriving DecidableEq, Repr

/-- Initial application state: every backend starts at
`initialCanvasState`, and `StoreManager`'s `defaultStore` is `zustand`. -/
def appInitial : AppState :=
  { zustandState := initialCanvasState
    reduxState := initialCanvasState
    contextState := initialCanvasState
    currentStore := .zustand }

/-- The snapshot the universal store interface reads: the state of the
currently active backend (useCanvasStore in
src/hooks/useCanvasStoreHooks.ts routes to the adapter of the current
store type). -/
def activeState (a : AppState) : CanvasState :=
  match a.currentStore with
  | .zustand => a.zustandState
  | .redux => a.reduxState
  | .context => a.contextState

/-- Dispatching a command routes it to the active backend's transition
function and leaves the other backends untouched. -/
def appDispatch (g : Gen) (a : AppState) (c : Command) : AppState :=
  match a.currentStore with
  | .zustand => { a with zustandState := zustandStep g a.zustandState c }
  | .redux => { a with reduxState := reduxStep g a.reduxState c }
  | .context => { a with contextState := canvasReducer g a.contextState c }

/-- handleStoreChange from src/components/StoreManager.tsx: switching to
the already active backend returns early; otherwise only
`setCurrentStore(newStoreType)` runs — no state is read from the
previously active backend and none is written into the target.  The
module-singleton Zustand and Redux stores keep whatever state they
already had; the Context backend's `CanvasProvider` is freshly mounted by
`UniversalProvider`, so its `useReducer` state re-initializes to
`initialCanvasState` (src/store/contextStore.tsx line 248). -/
def handleStoreChange (a : AppState) (t : StoreType) : AppState :=
  if t = a.currentStore then a
  else
    match t with
    | .context => { a with currentStore := t, contextState := initialCanvasState }
    | .zustand => { a with currentStore := t }
    | .redux => { a with currentStore := t }

/-- Fixed generator used where a concrete command sequence is evaluated;
the commands involved (clear, undo, redo) never consult the generator. -/
def gDummy : Gen :=
  { id := "shape_0", now := 0 }

/-- The spec's drawing scenario: from the initial state, start a stroke at
(10,10), extend it to (20,20), and finish it. -/
def scenarioState (g : Gen) : CanvasState :=
  canvasReducer g
    (canvasReducer g
      (canvasReducer g initialCanvasState (.startDrawing ⟨10, 10⟩))
      (.continueDrawing ⟨20, 20⟩))
    .finishDrawing

/-- A canvas state outside the reachable set: not drawing, yet with a
non-empty in-progress path. -/
def pathStuckState : CanvasState :=
  { shapes := []
    currentColor := "#000000"
    currentTool := .pen
    history := [[]]
    historyIndex := 0
    isDrawing := false
    currentPath := [⟨1, 1⟩] }

/-- A canvas state in the middle of drawing a stroke. -/
def midDrawState : CanvasState :=
  { shapes := []
    currentColor := "#FF0000"
    currentTool := .pen
    history := [[]]
    historyIndex := 0
    isDrawing := true
    currentPath := [⟨3, 4⟩] }

/-- The state reached from the initial state by clear, clear, undo: its
cursor sits strictly between the first and the last history entry. -/
def roundtripWitnessState : CanvasState :=
  canvasReducer gDummy
    (canvasReducer gDummy
      (canvasReducer gDummy initialCanvasState .clear) .clear)
    .undo

/-- States reachable from `initialCanvasState` by dispatching any sequence
of commands (each with its own generated id/timestamp) through the
canvas reducer. -/
inductive reachable : CanvasState → Prop where
  | init : reachable initialCanvasState
  | step (g : Gen) (c : Command) (s : CanvasState) :
      reachable s → reachable (canvasReducer g s c)

/-- The Redux slice reducer computes exactly the same next state as the
React Context reducer on every state and command. -/
lemma reduxStep_eq_canvasReducer (g : Gen) (s : CanvasState)
    (c : Command) : reduxStep g s c = canvasReducer g s c := by
  cases c <;> try rfl
  case continueDrawing p =>
    cases h : s.isDrawing <;> simp [reduxStep, canvasReducer, h]
  case finishDrawing =>
    cases h : s.isDrawing
    · simp [reduxStep, canvasReducer, h]
    · cases hp : s.currentPath <;>
        simp [reduxStep, canvasReducer, h, hp]
  case undo =>
    cases h : canUndo s.historyIndex <;>
      simp [reduxStep, canvasReducer, h]
  case redo =>
    cases h : canRedo s.historyIndex s.history.length <;>
      simp [reduxStep, canvasReducer, h]

/-- The Zustand store action computes exactly the same next state as the
React Context reducer on every state and command. -/
lemma zustandStep_eq_canvasReducer (g : Gen) (s : CanvasState)
    (c : Command) : zustandStep g s c = canvasReducer g s c := by
  cases c <;> try rfl
  case continueDrawing p =>
    cases h : s.isDrawing <;> simp [zustandStep, canvasReducer, h]
  case finishDrawing =>
    cases h : s.isDrawing
    · simp [zustandStep, canvasReducer, h]
    · cases hp : s.currentPath <;>
        simp [zustandStep, canvasReducer, h, hp]
  case undo =>
    cases h : canUndo s.historyIndex <;>
      simp [zustandStep, canvasReducer, h]
  case redo =>
    cases h : canRedo s.historyIndex s.history.length <;>
      simp [zustandStep, canvasReducer, h]

/-- With a positive size cap, the history produced by `addToHistory` is
the truncated-and-extended list with just enough entries dropped from the
front (`List.drop 0` when the cap is not exceeded). -/
lemma addToHistory_history_eq (h : List (List Shape)) (i : Nat)
    (n : List Shape) (m : Nat) (hm : 1 ≤ m) :
    (addToHistory h i n m).history =
      (h.take (i + 1) ++ [n]).drop ((h.take (i + 1) ++ [n]).length - m) := by
  have hm0 : m ≠ 0 := by omega
  show (if (h.take (i + 1) ++ [n]).length > m then
          if m = 0 then h.take (i + 1) ++ [n]
          else (h.take (i + 1) ++ [n]).drop ((h.take (i + 1) ++ [n]).length - m)
        else h.take (i + 1) ++ [n]) =
      (h.take (i + 1) ++ [n]).drop ((h.take (i + 1) ++ [n]).length - m)
  by_cases hlen : (h.take (i + 1) ++ [n]).length > m
  · rw [if_pos hlen, if_neg hm0]
  · rw [if_neg hlen, Nat.sub_eq_zero_of_le (Nat.le_of_not_lt hlen),
      List.drop_zero]

/-- The returned cursor of `addToHistory` is the last index of the
returned history (directly from the definition). -/
lemma addToHistory_index_eq (h : List (List Shape)) (i : Nat)
    (n : List Shape) (m : Nat) :
    (addToHistory h i n m).historyIndex =
      (addToHistory h i n m).history.length - 1 := rfl

/-- Length of the history produced by `addToHistory` under a positive cap. -/
lemma addToHistory_length (h : List (List Shape)) (i : Nat)
    (n : List Shape) (m : Nat) (hm : 1 ≤ m) :
    (addToHistory h i n m).history.length =
      min ((h.take (i + 1)).length + 1) m := by
  rw [addToHistory_history_eq h i n m hm, List.length_drop,
    List.length_append]
  simp only [List.length_singleton]
  omega

/-- Under a positive cap, the entry at the returned cursor is the newly
committed shape set. -/
lemma addToHistory_getD (h : List (List Shape)) (i : Nat)
    (n : List Shape) (m : Nat) (hm : 1 ≤ m) :
    (addToHistory h i n m).history.getD
      (addToHistory h i n m).historyIndex [] = n := by
  rw [addToHistory_index_eq, addToHistory_history_eq h i n m hm,
    List.getD_eq_getElem?_getD, List.length_drop, List.getElem?_drop]
  have hlen : (h.take (i + 1) ++ [n]).length = (h.take (i + 1)).length + 1 := by
    simp
  have harg :
      (h.take (i + 1) ++ [n]).length - m +
        ((h.take (i + 1) ++ [n]).length -
          ((h.take (i + 1) ++ [n]).length - m) - 1) =
        (h.take (i + 1)).length := by
    omega
  rw [harg, List.getElem?_append_right (Nat.le_refl _)]
  simp

/-- Committing through `addToHistory` with the default cap 50 yields an
in-bounds cursor whose entry is the committed shape set. -/
lemma addToHistory_commit_inv (h : List (List Shape)) (i : Nat)
    (n : List Shape) :
    (addToHistory h i n 50).historyIndex <
        (addToHistory h i n 50).history.length ∧
      (addToHistory h i n 50).history.getD
        (addToHistory h i n 50).historyIndex [] = n := by
  refine ⟨?_, addToHistory_getD _ _ _ 50 (by omega)⟩
  rw [addToHistory_index_eq, addToHistory_length _ _ _ 50 (by omega)]
  omega

/-- Core history invariant of every reachable state: the cursor is in
bounds and the history entry under the cursor is the live shape list. -/
lemma reachable_inv (s : CanvasState) (hs : reachable s) :
    s.historyIndex < s.history.length ∧
      s.history.getD s.historyIndex [] = s.shapes := by
  induction hs with
  | init => exact ⟨by decide, by decide⟩
  | step g c s hs ih =>
    rcases ih with ⟨ihlt, ihget⟩
    cases c with
    | addShape points color tool => exact addToHistory_commit_inv _ _ _
    | changeColor color => exact ⟨ihlt, ihget⟩
    | changeTool tool => exact ⟨ihlt, ihget⟩
    | startDrawing p => exact ⟨ihlt, ihget⟩
    | continueDrawing p =>
      simp only [canvasReducer]
      split
      · exact ⟨ihlt, ihget⟩
      · exact ⟨ihlt, ihget⟩
    | finishDrawing =>
      simp only [canvasReducer]
      split
      · exact ⟨ihlt, ihget⟩
      · exact addToHistory_commit_inv _ _ _
    | undo =>
      simp only [canvasReducer]
      split
      · exact ⟨ihlt, ihget⟩
      · refine ⟨?_, rfl⟩
        show s.historyIndex - 1 < s.history.length
        omega
    | redo =>
      simp only [canvasReducer]
      split
      · exact ⟨ihlt, ihget⟩
      · next hcond =>
        have hr : s.historyIndex < s.history.length - 1 := by
          simp [canRedo] at hcond
          omega
        refine ⟨?_, rfl⟩
        show s.historyIndex + 1 < s.history.length
        omega
    | clear => exact addToHistory_commit_inv _ _ _
    | reset =>
      refine ⟨?_, ?_⟩
      · show initialCanvasState.historyIndex < initialCanvasState.history.length
        decide
      · show initialCanvasState.history.getD initialCanvasState.historyIndex []
          = initialCanvasState.shapes
        decide

/-- Committing through `addToHistory` with the default cap 50 never
returns a history longer than 50. -/
lemma addToHistory_length_le (h : List (List Shape)) (i : Nat)
    (n : List Shape) : (addToHistory h i n 50).history.length ≤ 50 := by
  rw [addToHistory_length _ _ _ 50 (by omega)]
  omega

/-- Size-cap invariant: no reachable state has more than 50 history
entries. -/
lemma reachable_cap (s : CanvasState) (hs : reachable s) :
    s.history.length ≤ 50 := by
  induction hs with
  | init => decide
  | step g c s hs ih =>
    cases c with
    | addShape points color tool => exact addToHistory_length_le _ _ _
    | changeColor color => exact ih
    | changeTool tool => exact ih
    | startDrawing p => exact ih
    | continueDrawing p =>
      simp only [canvasReducer]
      split
      · exact ih
      · exact ih
    | finishDrawing =>
      simp only [canvasReducer]
      split
      · exact ih
      · exact addToHistory_length_le _ _ _
    | undo =>
      simp only [canvasReducer]
      split
      · exact ih
      · exact ih
    | redo =>
      simp only [canvasReducer]
      split
      · exact ih
      · exact ih
    | clear => exact addToHistory_length_le _ _ _
    | reset =>
      show initialCanvasState.history.length ≤ 50
      decide

/-- Drawing/path coupling invariant: in every reachable state, an empty
`isDrawing` flag forces an empty in-progress path. -/
lemma reachable_path_inv (s : CanvasState) (hs : reachable s) :
    s.isDrawing = false → s.currentPath = [] := by
  induction hs with
  | init => exact fun _ => rfl
  | step g c s hs ih =>
    cases c with
    | addShape points color tool => exact ih
    | changeColor color => exact ih
    | changeTool tool => exact ih
    | startDrawing p => exact fun h => nomatch h
    | continueDrawing p =>
      simp only [canvasReducer]
      split
      · exact ih
      · next hcond =>
        intro h
        show s.currentPath ++ [p] = []
        rw [h] at hcond
        simp at hcond
    | finishDrawing =>
      simp only [canvasReducer]
      split
      · exact fun _ => rfl
      · exact fun _ => rfl
    | undo =>
      simp only [canvasReducer]
      split
      · exact ih
      · exact fun _ => rfl
    | redo =>
      simp only [canvasReducer]
      split
      · exact ih
      · exact fun _ => rfl
    | clear => exact fun _ => rfl
    | reset => exact fun _ => rfl

/-- Undo is the identity when the cursor is already at the oldest entry
(canUndo fails and the reducer returns the state unchanged). -/
lemma undo_noop (g : Gen) (s : CanvasState) (h : s.historyIndex = 0) :
    canvasReducer g s .undo = s := by
  simp [canvasReducer, canUndo, h]

/-- Redo is the identity when the cursor is already at the newest entry
(canRedo fails and the reducer returns the state unchanged). -/
lemma redo_noop (g : Gen) (s : CanvasState)
    (h : s.historyIndex = s.history.length - 1) :
    canvasReducer g s .redo = s := by
  simp [canvasReducer, canRedo, h]

/-- C2: for every CanvasState reachable by any sequence of commands from
the initial state, history is non-empty, historyIndex satisfies
0 <= historyIndex < history.length (the lower bound is inherent in the
Nat embedding), and history[historyIndex] is structurally equal to
shapes. -/
theorem canvas_history_invariant (s : CanvasState) (hs : reachable s) :
    s.history ≠ [] ∧ s.historyIndex < s.history.length ∧
      s.history.getD s.historyIndex [] = s.shapes := by
  obtain ⟨hlt, hget⟩ := reachable_inv s hs
  refine ⟨?_, hlt, hget⟩
  intro hnil
  rw [hnil] at hlt
  simp at hlt

/-- Witness for C2 at the initial state. -/
theorem canvas_history_invariant_witness :
    reachable initialCanvasState ∧
      (initialCanvasState.history ≠ [] ∧
        initialCanvasState.historyIndex < initialCanvasState.history.length ∧
        initialCanvasState.history.getD initialCanvasState.historyIndex [] =
          initialCanvasState.shapes) :=
  ⟨.init, canvas_history_invariant initialCanvasState .init⟩

set_option maxRecDepth 100000 in
/-- C5: history.length never exceeds 50 in any reachable state, and
dispatching clear 60 times consecutively from the initial state yields
history.length = 50 and historyIndex = 49. -/
theorem history_cap_invariant :
    (∀ s : CanvasState, reachable s → s.history.length ≤ 50) ∧
      ((fun st => canvasReducer gDummy st .clear)^[60]
        initialCanvasState).history.length = 50 ∧
      ((fun st => canvasReducer gDummy st .clear)^[60]
        initialCanvasState).historyIndex = 49 := by
  refine ⟨fun s hs => reachable_cap s hs, ?_, ?_⟩ <;> decide

/-- Witness for C5 at the initial state. -/
theorem history_cap_invariant_witness :
    reachable initialCanvasState ∧ initialCanvasState.history.length ≤ 50 :=
  ⟨.init, history_cap_invariant.1 initialCanvasState .init⟩

/-- C7: undo at historyIndex = 0 (applied once or any number of times)
leaves the entire state unchanged and signals no error, and so does redo
at historyIndex = history.length - 1. -/
theorem undo_redo_out_of_bounds_noop (g : Gen) (s : CanvasState) :
    (s.historyIndex = 0 →
      ∀ n : Nat, (fun st => canvasReducer g st .undo)^[n] s = s) ∧
      (s.historyIndex = s.history.length - 1 →
        ∀ n : Nat, (fun st => canvasReducer g st .redo)^[n] s = s) := by
  constructor
  · intro h n
    exact Function.iterate_fixed (undo_noop g s h) n
  · intro h n
    exact Function.iterate_fixed (redo_noop g s h) n

/-- Witness for C7: the initial state has historyIndex 0, which is also
the final index of its single-entry history; three undos and three redos
are both the identity there. -/
theorem undo_redo_out_of_bounds_noop_witness :
    initialCanvasState.historyIndex = 0 ∧
      initialCanvasState.historyIndex =
        initialCanvasState.history.length - 1 ∧
      (fun st => canvasReducer gDummy st .undo)^[3] initialCanvasState =
        initialCanvasState ∧
      (fun st => canvasReducer gDummy st .redo)^[3] initialCanvasState =
        initialCanvasState :=
  ⟨rfl, rfl,
    (undo_redo_out_of_bounds_noop gDummy initialCanvasState).1 rfl 3,
    (undo_redo_out_of_bounds_noop gDummy initialCanvasState).2 rfl 3⟩

/-- C8: changeColor sets currentColor (to any string) and changeTool sets
currentTool, while shapes, history, historyIndex, isDrawing and
currentPath are all unchanged — no history entry is created by either;
each command also leaves the other selection field unchanged. -/
theorem selection_frame_effect (g : Gen) (s : CanvasState) (c : String)
    (t : DrawingTool) :
    (canvasReducer g s (.changeColor c)).currentColor = c ∧
      (canvasReducer g s (.changeColor c)).currentTool = s.currentTool ∧
      (canvasReducer g s (.changeColor c)).shapes = s.shapes ∧
      (canvasReducer g s (.changeColor c)).history = s.history ∧
      (canvasReducer g s (.changeColor c)).historyIndex = s.historyIndex ∧
      (canvasReducer g s (.changeColor c)).isDrawing = s.isDrawing ∧
      (canvasReducer g s (.changeColor c)).currentPath = s.currentPath ∧
      (canvasReducer g s (.changeTool t)).currentTool = t ∧
      (canvasReducer g s (.changeTool t)).currentColor = s.currentColor ∧
      (canvasReducer g s (.changeTool t)).shapes = s.shapes ∧
      (canvasReducer g s (.changeTool t)).history = s.history ∧
      (canvasReducer g s (.changeTool t)).historyIndex = s.historyIndex ∧
      (canvasReducer g s (.changeTool t)).isDrawing = s.isDrawing ∧
      (canvasReducer g s (.changeTool t)).currentPath = s.currentPath :=
  ⟨rfl, rfl, rfl, rfl, rfl, rfl, rfl, rfl, rfl, rfl, rfl, rfl, rfl, rfl⟩

/-- C9: in every reachable CanvasState, if isDrawing is false then
currentPath is empty. -/
theorem drawing_path_coupling (s : CanvasState) (hs : reachable s) :
    s.isDrawing = false → s.currentPath = [] :=
  reachable_path_inv s hs

/-- Witness for C9 at the initial state. -/
theorem drawing_path_coupling_witness :
    reachable initialCanvasState ∧ initialCanvasState.isDrawing = false ∧
      initialCanvasState.currentPath = [] :=
  ⟨.init, rfl, drawing_path_coupling initialCanvasState .init rfl⟩
/-- C3: replaying any fixed command sequence (with the shape id/timestamp
generation fixed as a common deterministic parameter per command) against
the Zustand store, the Redux Toolkit slice, and the React Context reducer
from the same seed CanvasState produces field-for-field identical
results. -/
theorem cross_backend_equivalence (cmds : List (Gen × Command))
    (s : CanvasState) :
    zustandReplay cmds s = contextReplay cmds s ∧
      reduxReplay cmds s = contextReplay cmds s := by
  induction cmds generalizing s with
  | nil => exact ⟨rfl, rfl⟩
  | cons p rest ih =>
    constructor
    · show zustandReplay rest (zustandStep p.1 s p.2) =
        contextReplay rest (canvasReducer p.1 s p.2)
      rw [zustandStep_eq_canvasReducer]
      exact (ih (canvasReducer p.1 s p.2)).1
    · show reduxReplay rest (reduxStep p.1 s p.2) =
        contextReplay rest (canvasReducer p.1 s p.2)
      rw [reduxStep_eq_canvasReducer]
      exact (ih (canvasReducer p.1 s p.2)).2

/-- C4 counterexample: the claim quantifies over every maxSize, but at
maxSize = 0 the code does not drop entries down to the cap — with
history [[]] at cursor 0 (a valid in-range cursor) the returned history
has length 2, which exceeds maxSize 0, because the JavaScript
`slice(-0)` evaluates to `slice(0)` and returns the whole array. -/
theorem addToHistory_commit_contract_counterexample :
    0 < ([[]] : List (List Shape)).length ∧
      (addToHistory [[]] 0 [] 0).history.length = 2 ∧
      ¬((addToHistory [[]] 0 [] 0).history.length ≤ 0) := by
  refine ⟨by decide, by decide, by decide⟩

/-- C4 (amended): for every history, every in-range cursor, every new
shape set, and every maxSize of at least 1, addToHistory truncates to
history[0..cursor], appends the new shape set, drops entries from the
front until the length equals maxSize if it exceeded maxSize, and
returns a cursor equal to the returned history's length minus 1; when
cursor + 2 <= maxSize the returned history has length cursor + 2. -/
theorem addToHistory_commit_contract (h : List (List Shape)) (i : Nat)
    (n : List Shape) (m : Nat) (hi : i < h.length) (hm : 1 ≤ m) :
    (addToHistory h i n m).history =
        (h.take (i + 1) ++ [n]).drop (i + 2 - m) ∧
      (addToHistory h i n m).historyIndex =
        (addToHistory h i n m).history.length - 1 ∧
      (addToHistory h i n m).history.length = min (i + 2) m ∧
      (i + 2 ≤ m → (addToHistory h i n m).history.length = i + 2) := by
  have hlen : (h.take (i + 1) ++ [n]).length = i + 2 := by
    simp [List.length_take]
    omega
  refine ⟨?_, addToHistory_index_eq h i n m, ?_, ?_⟩
  · rw [addToHistory_history_eq h i n m hm, hlen]
  · rw [addToHistory_length h i n m hm, List.length_take]
    omega
  · intro hcap
    rw [addToHistory_length h i n m hm, List.length_take]
    omega

/-- Witness for C4 at history [[], []], cursor 0, empty new shape set,
maxSize 50: the precondition holds and the committed history has length
cursor + 2 = 2. -/
theorem addToHistory_commit_contract_witness :
    0 < ([[], []] : List (List Shape)).length ∧
      (addToHistory [[], []] 0 [] 50).history.length = 2 :=
  ⟨by decide,
    (addToHistory_commit_contract [[], []] 0 [] 50 (by decide)
      (by decide)).2.2.2 (by decide)⟩

/-- C6 counterexample: on the state that is not drawing but still holds a
non-empty currentPath, finishDrawing persists no shape although the path
was non-empty, so "a shape is persisted iff the path was non-empty" fails
on that CanvasState. -/
theorem finishDrawing_contract_counterexample :
    pathStuckState.currentPath ≠ [] ∧
      (canvasReducer gDummy pathStuckState .finishDrawing).shapes =
        pathStuckState.shapes ∧
      (canvasReducer gDummy pathStuckState .finishDrawing).shapes.length
        = 0 := by
  refine ⟨by decide, rfl, by decide⟩

/-- C6 (amended): for every CanvasState, if isDrawing is true and
currentPath is non-empty, finishDrawing appends one Shape built from
currentPath/currentColor/currentTool to shapes and commits the new
shapes via the History Engine; in every case it sets isDrawing = false
and currentPath = []; a shape is persisted iff isDrawing was true and
the path was non-empty.  Instance: from the initial state,
startDrawing (10,10), continueDrawing (20,20), finishDrawing yields one
pen shape with points [(10,10),(20,20)], history.length = 2 and
historyIndex = 1. -/
theorem finishDrawing_contract (g : Gen) (s : CanvasState) :
    (canvasReducer g s .finishDrawing).isDrawing = false ∧
      (canvasReducer g s .finishDrawing).currentPath = [] ∧
      (s.isDrawing = true → s.currentPath ≠ [] →
        (canvasReducer g s .finishDrawing).shapes =
            s.shapes ++
              [createShape g s.currentPath s.currentColor s.currentTool] ∧
          (canvasReducer g s .finishDrawing).history =
            (addToHistory s.history s.historyIndex
              (s.shapes ++
                [createShape g s.currentPath s.currentColor s.currentTool])
              50).history ∧
          (canvasReducer g s .finishDrawing).historyIndex =
            (addToHistory s.history s.historyIndex
              (s.shapes ++
                [createShape g s.currentPath s.currentColor s.currentTool])
              50).historyIndex) ∧
      (¬(s.isDrawing = true ∧ s.currentPath ≠ []) →
        (canvasReducer g s .finishDrawing).shapes = s.shapes ∧
          (canvasReducer g s .finishDrawing).history = s.history ∧
          (canvasReducer g s .finishDrawing).historyIndex =
            s.historyIndex) ∧
      (scenarioState g).shapes =
          [createShape g [⟨10, 10⟩, ⟨20, 20⟩] "#000000" .pen] ∧
      (createShape g [⟨10, 10⟩, ⟨20, 20⟩] "#000000" .pen).points =
          [⟨10, 10⟩, ⟨20, 20⟩] ∧
      (createShape g [⟨10, 10⟩, ⟨20, 20⟩] "#000000" .pen).type = .pen ∧
      (scenarioState g).history.length = 2 ∧
      (scenarioState g).historyIndex = 1 := by
  refine ⟨?_, ?_, ?_, ?_, rfl, rfl, rfl, rfl, rfl⟩
  · simp only [canvasReducer]
    split
    · rfl
    · rfl
  · simp only [canvasReducer]
    split
    · rfl
    · rfl
  · intro hd hp
    have hcond : (!s.isDrawing || s.currentPath.length == 0) = false := by
      simp [hd, hp]
    simp [canvasReducer, hcond]
  · intro hnot
    by_cases hd : s.isDrawing = true
    · have hp : s.currentPath = [] := by
        by_contra hne
        exact hnot ⟨hd, hne⟩
      have hcond : (!s.isDrawing || s.currentPath.length == 0) = true := by
        simp [hd, hp]
      simp [canvasReducer, hcond]
    · have hcond : (!s.isDrawing || s.currentPath.length == 0) = true := by
        simp only [Bool.not_eq_true] at hd
        simp [hd]
      simp [canvasReducer, hcond]

/-- Witness for C6: on a state that is mid-draw with path [(3,4)],
finishDrawing persists exactly the shape built from that path. -/
theorem finishDrawing_contract_witness :
    midDrawState.isDrawing = true ∧ midDrawState.currentPath ≠ [] ∧
      (canvasReducer gDummy midDrawState .finishDrawing).shapes =
        midDrawState.shapes ++
          [createShape gDummy midDrawState.currentPath
            midDrawState.currentColor midDrawState.currentTool] :=
  ⟨rfl, by decide,
    ((finishDrawing_contract gDummy midDrawState).2.2.1 rfl (by decide)).1⟩
/-- C10: on every reachable state whose cursor allows it, undo followed by
redo restores shapes, history and historyIndex (with isDrawing reset and
currentPath emptied), and symmetrically redo followed by undo. -/
theorem undo_redo_roundtrip (g1 g2 : Gen) (s : CanvasState)
    (hs : reachable s) :
    (0 < s.historyIndex →
      (canvasReducer g2 (canvasReducer g1 s .undo) .redo).shapes =
          s.shapes ∧
        (canvasReducer g2 (canvasReducer g1 s .undo) .redo).history =
          s.history ∧
        (canvasReducer g2 (canvasReducer g1 s .undo) .redo).historyIndex =
          s.historyIndex ∧
        (canvasReducer g2 (canvasReducer g1 s .undo) .redo).isDrawing =
          false ∧
        (canvasReducer g2 (canvasReducer g1 s .undo) .redo).currentPath =
          []) ∧
      (s.historyIndex < s.history.length - 1 →
        (canvasReducer g2 (canvasReducer g1 s .redo) .undo).shapes =
            s.shapes ∧
          (canvasReducer g2 (canvasReducer g1 s .redo) .undo).history =
            s.history ∧
          (canvasReducer g2 (canvasReducer g1 s .redo) .undo).historyIndex
            = s.historyIndex ∧
          (canvasReducer g2 (canvasReducer g1 s .redo) .undo).isDrawing =
            false ∧
          (canvasReducer g2 (canvasReducer g1 s .redo) .undo).currentPath
            = []) := by
  obtain ⟨hlt, hget⟩ := reachable_inv s hs
  constructor
  · intro h
    have hu : canUndo s.historyIndex = true := by
      simp [canUndo]
      omega
    have hr : canRedo (s.historyIndex - 1) s.history.length = true := by
      simp [canRedo]
      omega
    have hsucc : s.historyIndex - 1 + 1 = s.historyIndex := by omega
    simp only [canvasReducer, hu, hr, Bool.not_true, Bool.false_eq_true,
      if_false, hsucc]
    refine ⟨hget, ?_, ?_, ?_, ?_⟩ <;> trivial
  · intro h
    have hr : canRedo s.historyIndex s.history.length = true := by
      simp [canRedo]
      omega
    have hu : canUndo (s.historyIndex + 1) = true := by
      simp [canUndo]
    have hpred : s.historyIndex + 1 - 1 = s.historyIndex := by omega
    simp only [canvasReducer, hr, hu, Bool.not_true, Bool.false_eq_true,
      if_false, hpred]
    refine ⟨hget, ?_, ?_, ?_, ?_⟩ <;> trivial

/-- Witness for C10 on the reachable state after clear, clear, undo,
whose cursor 1 sits strictly inside its 3-entry history. -/
theorem undo_redo_roundtrip_witness :
    reachable roundtripWitnessState ∧
      0 < roundtripWitnessState.historyIndex ∧
      roundtripWitnessState.historyIndex <
        roundtripWitnessState.history.length - 1 ∧
      (canvasReducer gDummy (canvasReducer gDummy roundtripWitnessState
          .undo) .redo).historyIndex =
        roundtripWitnessState.historyIndex ∧
      (canvasReducer gDummy (canvasReducer gDummy roundtripWitnessState
          .redo) .undo).historyIndex =
        roundtripWitnessState.historyIndex :=
  have hreach : reachable roundtripWitnessState :=
    .step gDummy .undo _
      (.step gDummy .clear _ (.step gDummy .clear _ .init))
  ⟨hreach, by decide, by decide,
    ((undo_redo_roundtrip gDummy gDummy roundtripWitnessState hreach).1
      (by decide)).2.2.1,
    ((undo_redo_roundtrip gDummy gDummy roundtripWitnessState hreach).2
      (by decide)).2.2.1⟩

/-- C1 (divergence witness): draw one shape while the Zustand backend is
active, then switch to the Redux backend; the newly active backend's
shapes list is empty, not the previously drawn one — the switch copies
no state (handleStoreChange in src/components/StoreManager.tsx only sets
the store type), so the drawing is lost, contradicting the documented
switch-preservation behavior. -/
theorem switch_loses_drawn_shapes :
    (activeState (appDispatch gDummy appInitial
        (.addShape [⟨0, 0⟩, ⟨5, 5⟩] "#FF0000" .pen))).shapes.length = 1 ∧
      (handleStoreChange (appDispatch gDummy appInitial
          (.addShape [⟨0, 0⟩, ⟨5, 5⟩] "#FF0000" .pen)) .redux).currentStore
        = .redux ∧
      (activeState (handleStoreChange (appDispatch gDummy appInitial
          (.addShape [⟨0, 0⟩, ⟨5, 5⟩] "#FF0000" .pen)) .redux)).shapes
        = [] := by
  refine ⟨by decide, by decide, by decide⟩
